import Mathlib

/-!
Verification development for the Python-Shell repository (src/main.py).

The program is a tiny interactive shell: a REPL loop that tokenizes a line
with `shlex.split`, extracts redirection operators from the token list,
dispatches the remaining tokens to builtins or external programs, and closes
any files it opened for redirection in a `finally` block.

The shallow embedding below models, from the source:
  * `shlex.split` (POSIX mode, whitespace_split, no comments) as `shlexSplit`;
  * the six redirection-extraction blocks of `main` as `extractRedirs`
    (`>`/elif `1>`, `2>`, `>>`/elif `1>>`, `2>>`, each via `.index`-style
    first-occurrence lookup, opening files that can fail);
  * the `finally` block as `closedByFinally`;
  * `handle_all`, `type_command` and `cd` as effect-producing functions;
  * `parse_programs_in_path` with its `except FileNotFoundError` handler;
  * one iteration of the `while True` loop of `main` as `mainStep`, whose
    `Outcome.crashed` result models an exception propagating out of `main`
    (there is no handler around the loop, so the process terminates).

The filesystem and environment are explicit parameters: `Env.openable` lists
the paths `open()` would succeed on, `Env.existing` the paths that exist,
`Env.programs` the PATH index, `Env.home` the HOME variable.
-/

namespace PyShell

/-! ### Character constants (quote, double quote, backslash, whitespace) -/

def squoteCh : Char := Char.ofNat 39

def dquoteCh : Char := Char.ofNat 34

def bslashCh : Char := Char.ofNat 92

/-- Whitespace set of `shlex`: space, tab, carriage return, newline. -/
def isShWhitespace (c : Char) : Bool :=
  decide (c = ' ' ∨ c = Char.ofNat 9 ∨ c = Char.ofNat 13 ∨ c = Char.ofNat 10)

/-! ### Tokenizer: model of `shlex.split(line)` (posix=True, whitespace_split=True) -/

/-- Lexer state of `shlex.read_token`: `ws` is the blank state, `word` is the
accumulating state, `quot q` means inside a quote opened by `q`, and
`esc ret` is the escaped state, returning to the double quote `ret` when set
and to the word state otherwise. -/
inductive LexState
  | ws
  | word
  | quot (q : Char)
  | esc (ret : Option Char)
deriving Repr, DecidableEq

/-- Core loop of `shlex.read_token`, iterated over the whole input as
`shlex.split` does.  `quoted` is the per-token quoted flag (so that empty
quoted tokens are emitted), `tok` the token being accumulated, `acc` the
tokens already emitted.  An unterminated quote raises
`ValueError("No closing quotation")`, a trailing escape raises
`ValueError("No escaped character")`; both are modelled as `Except.error`. -/
def shlexCore : List Char → LexState → Bool → String → List String →
    Except String (List String)
  | [], st, quoted, tok, acc =>
    match st with
    | .quot _ => .error "No closing quotation"
    | .esc _ => .error "No escaped character"
    | _ => if tok ≠ "" ∨ quoted = true then .ok (acc ++ [tok]) else .ok acc
  | c :: rest, .ws, quoted, tok, acc =>
    if isShWhitespace c then
      if tok ≠ "" ∨ quoted = true then shlexCore rest .ws false "" (acc ++ [tok])
      else shlexCore rest .ws quoted tok acc
    else if c = bslashCh then shlexCore rest (.esc none) quoted tok acc
    else if c = squoteCh ∨ c = dquoteCh then shlexCore rest (.quot c) quoted tok acc
    else shlexCore rest .word quoted (tok.push c) acc
  | c :: rest, .word, quoted, tok, acc =>
    if isShWhitespace c then
      if tok ≠ "" ∨ quoted = true then shlexCore rest .ws false "" (acc ++ [tok])
      else shlexCore rest .ws quoted tok acc
    else if c = squoteCh ∨ c = dquoteCh then shlexCore rest (.quot c) quoted tok acc
    else if c = bslashCh then shlexCore rest (.esc none) quoted tok acc
    else shlexCore rest .word quoted (tok.push c) acc
  | c :: rest, .quot q, _, tok, acc =>
    if c = q then shlexCore rest .word true tok acc
    else if q = dquoteCh ∧ c = bslashCh then shlexCore rest (.esc (some q)) true tok acc
    else shlexCore rest (.quot q) true (tok.push c) acc
  | c :: rest, .esc ret, quoted, tok, acc =>
    match ret with
    | none => shlexCore rest .word quoted (tok.push c) acc
    | some q =>
      if c ≠ bslashCh ∧ c ≠ q then
        shlexCore rest (.quot q) quoted ((tok.push bslashCh).push c) acc
      else shlexCore rest (.quot q) quoted (tok.push c) acc

/-- Model of `shlex.split(line)` as called at `main.py:52`. -/
def shlexSplit (line : String) : Except String (List String) :=
  shlexCore line.data .ws false "" []

/-! ### Uncaught exceptions of one loop iteration -/

/-- The exception kinds that can propagate out of the loop body of `main`.
There is no `except` clause anywhere in `main.py`, so each of these
terminates the REPL process. -/
inductive Crash
  | valueError (msg : String)
  | indexError
  | osError (path : String)
  | permissionError (dir : String)
deriving Repr, DecidableEq

/-! ### Redirection extraction (main.py lines 53-85) -/

/-- Open mode of a redirection target: `w` truncates, `a` appends. -/
inductive Mode
  | w
  | a
deriving Repr, DecidableEq

/-- The redirected channel: stdout or stderr. -/
inductive Chan
  | outC
  | errC
deriving Repr, DecidableEq

/-- State of the loop body during redirection extraction: the token list
`cmds`, the current `out`/`err` bindings (`none` is the process stream, a
path is an open file), the `close_out`/`close_err` flags, and the list of
every file opened so far with its mode. -/
structure RedirSt where
  cmds : List String
  out : Option String
  err : Option String
  closeOut : Bool
  closeErr : Bool
  opened : List (String × Mode)
deriving Repr, DecidableEq

/-- Initial state of one loop iteration: `out, err = sys.stdout, sys.stderr`
and `close_out, close_err = False, False`. -/
def RedirSt.init (cmds : List String) : RedirSt :=
  ⟨cmds, none, none, false, false, []⟩

/-- First index of `op` in the list, as the Python `list.index` method returns it. -/
def idxOf? (op : String) : List String → Option Nat
  | [] => none
  | x :: xs => if x = op then some 0 else (idxOf? op xs).map (· + 1)

/-- One redirection block of `main`: find the first occurrence of `op`, read
the following token (raising `IndexError` past the end), open it (raising
`OSError` when the path is not in `fs`), bind the stream of channel `ch` to
it, set the close flag, and drop the two tokens.  When `op` is absent the
state is unchanged (the caller only invokes this under an `in` test, but the
function is total). -/
def applyOp (fs : List String) (op : String) (m : Mode) (ch : Chan) (st : RedirSt) :
    Except (Crash × RedirSt) RedirSt :=
  match idxOf? op st.cmds with
  | none => .ok st
  | some i =>
    match st.cmds[i + 1]? with
    | none => .error (.indexError, st)
    | some f =>
      if f ∈ fs then
        match ch with
        | .outC =>
          .ok { st with cmds := st.cmds.take i ++ st.cmds.drop (i + 2),
                        opened := st.opened ++ [(f, m)], out := some f, closeOut := true }
        | .errC =>
          .ok { st with cmds := st.cmds.take i ++ st.cmds.drop (i + 2),
                        opened := st.opened ++ [(f, m)], err := some f, closeErr := true }
      else .error (.osError f, st)

/-- Lines 56-65: `if ">" in cmds: ... elif "1>" in cmds: ...` (stdout, truncate). -/
def redirOut1 (fs : List String) (st : RedirSt) : Except (Crash × RedirSt) RedirSt :=
  if ">" ∈ st.cmds then applyOp fs ">" .w .outC st
  else if "1>" ∈ st.cmds then applyOp fs "1>" .w .outC st
  else .ok st

/-- Lines 66-70: `if "2>" in cmds: ...` (stderr, truncate). -/
def redirErr1 (fs : List String) (st : RedirSt) : Except (Crash × RedirSt) RedirSt :=
  if "2>" ∈ st.cmds then applyOp fs "2>" .w .errC st else .ok st

/-- Lines 71-80: `if ">>" in cmds: ... elif "1>>" in cmds: ...` (stdout, append). -/
def redirOut2 (fs : List String) (st : RedirSt) : Except (Crash × RedirSt) RedirSt :=
  if ">>" ∈ st.cmds then applyOp fs ">>" .a .outC st
  else if "1>>" ∈ st.cmds then applyOp fs "1>>" .a .outC st
  else .ok st

/-- Lines 81-85: `if "2>>" in cmds: ...` (stderr, append). -/
def redirErr2 (fs : List String) (st : RedirSt) : Except (Crash × RedirSt) RedirSt :=
  if "2>>" ∈ st.cmds then applyOp fs "2>>" .a .errC st else .ok st

/-- The whole redirection-extraction sequence of `main`, in source order.  An
error short-circuits exactly as a raised exception leaves the remaining
blocks unexecuted. -/
def extractRedirs (fs : List String) (cmds0 : List String) :
    Except (Crash × RedirSt) RedirSt :=
  match redirOut1 fs (RedirSt.init cmds0) with
  | .error e => .error e
  | .ok st1 =>
    match redirErr1 fs st1 with
    | .error e => .error e
    | .ok st2 =>
      match redirOut2 fs st2 with
      | .error e => .error e
      | .ok st3 => redirErr2 fs st3

/-- The files closed by the `finally` block (lines 87-91): the final values
of `out` and `err`, each only when its close flag is set.  Files that were
opened but are no longer bound to `out`/`err` are not closed. -/
def closedByFinally (st : RedirSt) : List String :=
  (if st.closeOut then st.out.toList else []) ++
    (if st.closeErr then st.err.toList else [])

/-- The six redirection operator tokens recognized by `main`. -/
def REDIR_OPS : List String := [">", "1>", ">>", "1>>", "2>", "2>>"]

/-- A token list containing no redirection operator token. -/
abbrev opFree (l : List String) : Prop := ∀ x ∈ l, x ∉ REDIR_OPS

/-! ### Dispatcher (handle_all, type_command, cd) -/

/-- Observable side effects of dispatching one command: writes to the `out`
stream, raising `SystemExit` via `sys.exit(0)`, spawning a child process
with `subprocess.Popen` and waiting, or `os.chdir`.  (`main.py` never writes
to the `err` stream itself; `err` is only handed to the child process.) -/
inductive Effect
  | writeOut (s : String)
  | exitZero
  | spawn (argv : List String)
  | chdir (path : String)
deriving Repr, DecidableEq

/-- Process environment and filesystem as the shell sees them:
`programs` is `PROGRAMS_IN_PATH` (name to full path), `cwd` the working
directory, `home` the HOME variable (unset = `none`), `existing` the paths
for which `Path.exists()` is true, and `openable` the paths `open()`
succeeds on. -/
structure Env where
  programs : List (String × String)
  cwd : String
  home : Option String
  existing : List String
  openable : List String
deriving Repr, DecidableEq

/-- Dictionary lookup in `PROGRAMS_IN_PATH`. -/
def lookupProg : List (String × String) → String → Option String
  | [], _ => none
  | (k, v) :: ps, key => if k = key then some v else lookupProg ps key

/-- `SHELL_BUILTINS` of main.py line 10. -/
def SHELL_BUILTINS : List String := ["echo", "exit", "type", "pwd", "cd"]

/-- `type_command` (main.py lines 111-118). -/
def type_command (env : Env) (command : String) : List Effect :=
  if command ∈ SHELL_BUILTINS then [.writeOut (command ++ " is a shell builtin\n")]
  else
    match lookupProg env.programs command with
    | some p => [.writeOut (command ++ " is " ++ p ++ "\n")]
    | none => [.writeOut (command ++ ": not found\n")]

/-- The Python idiom `os.getenv("HOME") or "/root"`: the `or` falls back both when
the variable is unset and when it is set to the empty string. -/
def pyGetenvOr (v : Option String) (dflt : String) : String :=
  match v with
  | none => dflt
  | some s => if s = "" then dflt else s

/-- Replacement of every occurrence of the tilde character, character by
character; `str.replace("~", h)` with a one-character pattern is exactly
this. -/
def replaceTilde (h : String) : List Char → List Char
  | [] => []
  | c :: cs => (if c = '~' then h.data else [c]) ++ replaceTilde h cs

/-- Model of `path.replace("~", h)` as called in `cd`. -/
def pyReplaceTilde (s : String) (h : String) : String := String.mk (replaceTilde h s.data)

/-- Model of `path.startswith("~")`. -/
def startsWithTilde (s : String) : Bool :=
  match s.data with
  | [] => false
  | c :: _ => decide (c = '~')

/-- The tilde substitution of `cd` (main.py lines 121-123): only when the
argument starts with a tilde, every tilde is replaced by
`os.getenv("HOME") or "/root"`. -/
def tildeSub (home : Option String) (path : String) : String :=
  if startsWithTilde path then pyReplaceTilde path (pyGetenvOr home "/root") else path

/-- `cd` (main.py lines 120-128): substitute, test existence, then either
report on the `out` stream (leaving the working directory unchanged) or
`os.chdir`. -/
def cd (env : Env) (path : String) : List Effect :=
  if tildeSub env.home path ∈ env.existing then [.chdir (tildeSub env.home path)]
  else [.writeOut ("cd: " ++ tildeSub env.home path ++ ": No such file or directory\n")]

/-- `handle_all` (main.py lines 93-109): the `match` statement over the
post-extraction token list, cases in source order, first match wins.  The
final `case command:` is a catch-all; for the empty list it writes the join
of zero tokens, i.e. `": command not found"`. -/
def handle_all (env : Env) (cmds : List String) : List Effect :=
  match cmds with
  | "echo" :: s => [.writeOut (String.intercalate " " s ++ "\n")]
  | ["type", s] => type_command env s
  | ["exit", "0"] => [.exitZero]
  | ["pwd"] => [.writeOut (env.cwd ++ "\n")]
  | ["cd", d] => cd env d
  | cmd :: args =>
    if (lookupProg env.programs cmd).isSome then [.spawn (cmd :: args)]
    else [.writeOut (String.intercalate " " (cmd :: args) ++ ": command not found\n")]
  | [] => [.writeOut (String.intercalate " " ([] : List String) ++ ": command not found\n")]

/-- The shapes matched by the five builtin cases of `handle_all`. -/
def isBuiltinForm : List String → Bool
  | "echo" :: _ => true
  | ["type", _] => true
  | ["exit", "0"] => true
  | ["pwd"] => true
  | ["cd", _] => true
  | _ => false

/-! ### One iteration of the REPL loop (main.py lines 50-91) -/

/-- How one iteration of the `while True` loop ends: back to the prompt, via
`SystemExit` from `exit 0`, or with an uncaught exception.  `main` has no
handler around the loop, so `crashed` terminates the REPL process (after the
`finally` block has run). -/
inductive Outcome
  | next
  | exited
  | crashed (c : Crash)
deriving Repr, DecidableEq

/-- Everything observable about one loop iteration: the `shlex` token list
(`none` when tokenization raised), the token list passed to `handle_all`
(`none` when it was never called), the dispatch effects, the final
`out`/`err` stream bindings, the files opened for redirection, the files
closed by the `finally` block, and the outcome. -/
structure StepTrace where
  tokens : Option (List String)
  dispatched : Option (List String)
  effects : List Effect
  outDest : Option String
  errDest : Option String
  opened : List (String × Mode)
  closed : List String
  outcome : Outcome
deriving Repr, DecidableEq

/-- One iteration of the loop body of `main` on input `line`:
`shlex.split` (outside the `try`, so its `ValueError` is uncaught and not
covered by any `finally`), then the redirection blocks, then `handle_all`,
then the `finally` block.  Exceptions from the redirection blocks run the
`finally` and then propagate. -/
def mainStep (env : Env) (line : String) : StepTrace :=
  match shlexSplit line with
  | .error msg =>
    { tokens := none, dispatched := none, effects := [], outDest := none,
      errDest := none, opened := [], closed := [],
      outcome := .crashed (.valueError msg) }
  | .ok cmds =>
    match extractRedirs env.openable cmds with
    | .error (c, st) =>
      { tokens := some cmds, dispatched := none, effects := [], outDest := st.out,
        errDest := st.err, opened := st.opened, closed := closedByFinally st,
        outcome := .crashed c }
    | .ok st =>
      { tokens := some cmds, dispatched := some st.cmds,
        effects := handle_all env st.cmds, outDest := st.out, errDest := st.err,
        opened := st.opened, closed := closedByFinally st,
        outcome := if Effect.exitZero ∈ handle_all env st.cmds then .exited else .next }

/-! ### PathIndex (parse_programs_in_path, main.py lines 20-29) -/

/-- One directory entry with the results of `entry.is_file()` and
`os.access(entry, os.X_OK)`. -/
structure FsEntry where
  name : String
  path : String
  isFile : Bool
  isExec : Bool
deriving Repr, DecidableEq

/-- What `Path(dir).iterdir()` does for one directory: raise
`FileNotFoundError`, raise `PermissionError`, or yield entries. -/
inductive DirState
  | missing
  | denied
  | entries (es : List FsEntry)
deriving Repr, DecidableEq

/-- Python dict assignment `programs[name] = path`: overwrite an existing
binding, otherwise append. -/
def dictInsert (ps : List (String × String)) (k v : String) : List (String × String) :=
  if ps.any (fun p => decide (p.1 = k)) then
    ps.map (fun p => if p.1 = k then (k, v) else p)
  else ps ++ [(k, v)]

/-- The inner loop over `Path(dir).iterdir()`: insert each executable
regular file. -/
def scanDir (progs : List (String × String)) (es : List FsEntry) :
    List (String × String) :=
  es.foldl (fun ps e => if e.isFile && e.isExec then dictInsert ps e.name e.path else ps)
    progs

/-- The state the filesystem reports for a directory; a directory absent
from the model does not exist. -/
def lookupDir (fsys : List (String × DirState)) (d : String) : DirState :=
  match fsys.find? (fun p => decide (p.1 = d)) with
  | some p => p.2
  | none => .missing

/-- The directory loop of `parse_programs_in_path`: `except FileNotFoundError:
continue` skips a missing directory, but a `PermissionError` is not caught
and propagates, aborting the scan. -/
def scanDirs (fsys : List (String × DirState)) :
    List String → List (String × String) → Except Crash (List (String × String))
  | [], progs => .ok progs
  | d :: ds, progs =>
    match lookupDir fsys d with
    | .missing => scanDirs fsys ds progs
    | .denied => .error (.permissionError d)
    | .entries es => scanDirs fsys ds (scanDir progs es)

/-- The Python method `str.split(sep)` with a one-character separator: split at every
occurrence, keeping empty pieces (`"".split(":") == [""]`). -/
def pySplit (sep : Char) : List Char → List String
  | [] => [""]
  | c :: rest =>
    if c = sep then "" :: pySplit sep rest
    else
      match pySplit sep rest with
      | [] => [String.singleton c]
      | t :: ts => (String.singleton c ++ t) :: ts

/-- `parse_programs_in_path(path, {})` (main.py lines 20-29): split the
search path on `:` (the POSIX `os.pathsep`) and scan each directory in
order. -/
def parse_programs_in_path (fsys : List (String × DirState)) (path : String) :
    Except Crash (List (String × String)) :=
  scanDirs fsys (pySplit ':' path.data) []

/-! ### Concrete environments and inputs used to settle individual claims -/

/-- A bare environment: no programs on the path, nothing exists, nothing can
be opened. -/
def envC1 : Env :=
  { programs := [], cwd := "/w", home := none, existing := [], openable := [] }

/-- The input line `echo` + space + single quote + `abc`, carrying an unterminated single quote. -/
def lineC1 : String := "echo " ++ String.singleton squoteCh ++ "abc"

def envC2 : Env :=
  { programs := [], cwd := "/w", home := none, existing := [], openable := [] }

/-- Environment in which both redirection targets of the C3 input open
successfully. -/
def envC3 : Env :=
  { programs := [], cwd := "/w", home := none, existing := [],
    openable := ["/tmp/a", "/tmp/b"] }

/-- Environment in which the file `f` opens successfully. -/
def envC4 : Env :=
  { programs := [], cwd := "/w", home := none, existing := [], openable := ["f"] }

def envC4w : Env :=
  { programs := [], cwd := "/w", home := none, existing := [], openable := ["out.txt"] }

def envC5 : Env :=
  { programs := [], cwd := "/w", home := none, existing := [], openable := [] }

/-- Environment with HOME set to `/home/u` and an empty filesystem. -/
def envC6 : Env :=
  { programs := [], cwd := "/w", home := some "/home/u", existing := [], openable := [] }

def envC7 : Env :=
  { programs := [], cwd := "/w", home := none, existing := [], openable := [] }

/-- A filesystem with one readable directory holding one executable and one
permission-denied directory. -/
def fsysC8 : List (String × DirState) :=
  [("/ok", DirState.entries [{ name := "ls", path := "/ok/ls", isFile := true, isExec := true }]),
   ("/locked", DirState.denied)]

/-- Environment in which the file `g` opens successfully. -/
def envC10 : Env :=
  { programs := [], cwd := "/w", home := none, existing := [], openable := ["g"] }

def envC10w : Env :=
  { programs := [], cwd := "/w", home := none, existing := [], openable := [] }

/-! ### Helper lemmas about lists and the redirection machinery -/

theorem opFree_not_mem {l : List String} {op : String} (h : opFree l)
    (hop : op ∈ REDIR_OPS) : op ∉ l :=
  fun hmem => h op hmem hop

theorem opFree_append {pre post : List String} (hpre : opFree pre)
    (hpost : opFree post) : opFree (pre ++ post) := by
  intro x hx
  rcases List.mem_append.1 hx with h | h
  · exact hpre x h
  · exact hpost x h

theorem not_mem_middle {opx op f : String} {pre post : List String}
    (hops : opx ∈ REDIR_OPS) (hne : opx ≠ op) (hpre : opFree pre)
    (hf : f ∉ REDIR_OPS) (hpost : opFree post) :
    opx ∉ pre ++ op :: f :: post := by
  intro hmem
  rcases List.mem_append.1 hmem with h | h
  · exact hpre _ h hops
  · rcases List.mem_cons.1 h with h | h
    · exact hne h
    · rcases List.mem_cons.1 h with h | h
      · exact hf (h ▸ hops)
      · exact hpost _ h hops

theorem not_mem_last {opx op : String} {pre : List String}
    (hops : opx ∈ REDIR_OPS) (hne : opx ≠ op) (hpre : opFree pre) :
    opx ∉ pre ++ [op] := by
  intro hmem
  rcases List.mem_append.1 hmem with h | h
  · exact hpre _ h hops
  · rcases List.mem_cons.1 h with h | h
    · exact hne h
    · exact absurd h (List.not_mem_nil _)

theorem idxOf?_not_mem {op : String} {l : List String} (h : op ∉ l) :
    idxOf? op l = none := by
  induction l with
  | nil => rfl
  | cons x xs ih =>
    have hx : ¬ x = op := fun e => h (by simp [e])
    have hxs : op ∉ xs := fun hm => h (List.mem_cons_of_mem _ hm)
    simp [idxOf?, hx, ih hxs]

theorem idxOf?_append_self {op : String} {pre : List String} (rest : List String)
    (h : op ∉ pre) : idxOf? op (pre ++ op :: rest) = some pre.length := by
  induction pre with
  | nil => simp [idxOf?]
  | cons x xs ih =>
    have hx : ¬ x = op := fun e => h (by simp [e])
    have hxs : op ∉ xs := fun hm => h (List.mem_cons_of_mem _ hm)
    simp [idxOf?, hx, ih hxs]

theorem getElem?_append_add (pre rest : List String) (n : Nat) :
    (pre ++ rest)[pre.length + n]? = rest[n]? := by
  induction pre with
  | nil => simp
  | cons x xs ih =>
    have hlen : (x :: xs).length + n = (xs.length + n) + 1 := by
      simp [List.length_cons]; omega
    rw [List.cons_append, hlen, List.getElem?_cons_succ, ih]

theorem take_len_append (pre rest : List String) :
    (pre ++ rest).take pre.length = pre := by
  induction pre with
  | nil => simp
  | cons x xs ih => simp [ih]

theorem drop_len_add_append (pre rest : List String) (n : Nat) :
    (pre ++ rest).drop (pre.length + n) = rest.drop n := by
  induction pre with
  | nil => simp
  | cons x xs ih =>
    have hlen : (x :: xs).length + n = (xs.length + n) + 1 := by
      simp [List.length_cons]; omega
    rw [List.cons_append, hlen, List.drop_succ_cons, ih]

theorem applyOp_skip (fs : List String) (op : String) (m : Mode) (ch : Chan)
    (st : RedirSt) (h : op ∉ st.cmds) : applyOp fs op m ch st = .ok st := by
  simp [applyOp, idxOf?_not_mem h]

theorem applyOp_fire (fs : List String) (op f : String) (m : Mode) (ch : Chan)
    (st : RedirSt) (pre post : List String) (hc : st.cmds = pre ++ op :: f :: post)
    (hpre : op ∉ pre) (hopen : f ∈ fs) :
    ∃ st2 : RedirSt, applyOp fs op m ch st = .ok st2 ∧ st2.cmds = pre ++ post := by
  have hidx : idxOf? op st.cmds = some pre.length := by
    rw [hc]; exact idxOf?_append_self _ hpre
  have hget : st.cmds[pre.length + 1]? = some f := by
    rw [hc, getElem?_append_add]; simp
  have htake : st.cmds.take pre.length = pre := by
    rw [hc]; exact take_len_append pre _
  have hdrop : st.cmds.drop (pre.length + 2) = post := by
    rw [hc, drop_len_add_append]; rfl
  cases ch with
  | outC =>
    have key : applyOp fs op m .outC st = .ok
        { st with cmds := pre ++ post, opened := st.opened ++ [(f, m)], out := some f, closeOut := true } := by
      simp [applyOp, hidx, hget, hopen, htake, hdrop]
    exact ⟨_, key, rfl⟩
  | errC =>
    have key : applyOp fs op m .errC st = .ok
        { st with cmds := pre ++ post, opened := st.opened ++ [(f, m)], err := some f, closeErr := true } := by
      simp [applyOp, hidx, hget, hopen, htake, hdrop]
    exact ⟨_, key, rfl⟩

theorem applyOp_last (fs : List String) (op : String) (m : Mode) (ch : Chan)
    (st : RedirSt) (pre : List String) (hc : st.cmds = pre ++ [op])
    (hpre : op ∉ pre) : applyOp fs op m ch st = .error (.indexError, st) := by
  have hidx : idxOf? op st.cmds = some pre.length := by
    rw [hc]; exact idxOf?_append_self _ hpre
  have hget : st.cmds[pre.length + 1]? = none := by
    rw [hc, getElem?_append_add]; simp
  simp [applyOp, hidx, hget]

theorem redirOut1_skip (fs : List String) (st : RedirSt) (h1 : ">" ∉ st.cmds)
    (h2 : "1>" ∉ st.cmds) : redirOut1 fs st = .ok st := by
  simp [redirOut1, h1, h2]

theorem redirErr1_skip (fs : List String) (st : RedirSt) (h : "2>" ∉ st.cmds) :
    redirErr1 fs st = .ok st := by
  simp [redirErr1, h]

theorem redirOut2_skip (fs : List String) (st : RedirSt) (h1 : ">>" ∉ st.cmds)
    (h2 : "1>>" ∉ st.cmds) : redirOut2 fs st = .ok st := by
  simp [redirOut2, h1, h2]

theorem redirErr2_skip (fs : List String) (st : RedirSt) (h : "2>>" ∉ st.cmds) :
    redirErr2 fs st = .ok st := by
  simp [redirErr2, h]

/-- A token list with no redirection operator passes through the whole
extraction sequence unchanged, opening nothing. -/
theorem extract_no_ops (fs : List String) (cmds : List String) (h : opFree cmds) :
    extractRedirs fs cmds = .ok (RedirSt.init cmds) := by
  have h1 : ">" ∉ cmds := opFree_not_mem h (by decide)
  have h2 : "1>" ∉ cmds := opFree_not_mem h (by decide)
  have h3 : "2>" ∉ cmds := opFree_not_mem h (by decide)
  have h4 : ">>" ∉ cmds := opFree_not_mem h (by decide)
  have h5 : "1>>" ∉ cmds := opFree_not_mem h (by decide)
  have h6 : "2>>" ∉ cmds := opFree_not_mem h (by decide)
  have e1 : redirOut1 fs (RedirSt.init cmds) = .ok (RedirSt.init cmds) :=
    redirOut1_skip fs _ h1 h2
  have e2 : redirErr1 fs (RedirSt.init cmds) = .ok (RedirSt.init cmds) :=
    redirErr1_skip fs _ h3
  have e3 : redirOut2 fs (RedirSt.init cmds) = .ok (RedirSt.init cmds) :=
    redirOut2_skip fs _ h4 h5
  have e4 : redirErr2 fs (RedirSt.init cmds) = .ok (RedirSt.init cmds) :=
    redirErr2_skip fs _ h6
  simp only [extractRedirs, e1, e2, e3, e4]

/-- A token list whose only redirection operator occurrence is `op`, followed
by an openable filename `f`: the extraction sequence removes exactly those
two tokens and the list handed on contains no operator. -/
theorem extract_single_op (fs : List String) (pre post : List String) (op f : String)
    (hop : op ∈ REDIR_OPS) (hpre : opFree pre) (hf : f ∉ REDIR_OPS)
    (hpost : opFree post) (hopen : f ∈ fs) :
    ∃ st : RedirSt, extractRedirs fs (pre ++ op :: f :: post) = .ok st ∧
      st.cmds = pre ++ post := by
  have hpre' : op ∉ pre := opFree_not_mem hpre hop
  have hfree2 : opFree (pre ++ post) := opFree_append hpre hpost
  simp only [REDIR_OPS, List.mem_cons, List.not_mem_nil, or_false] at hop
  rcases hop with rfl | rfl | rfl | rfl | rfl | rfl
  · -- op = ">"
    obtain ⟨st1, e1, hc1⟩ :=
      applyOp_fire fs ">" f .w .outC (RedirSt.init (pre ++ ">" :: f :: post))
        pre post rfl hpre' hopen
    have m1 : (">" : String) ∈ (RedirSt.init (pre ++ ">" :: f :: post)).cmds := by
      simp [RedirSt.init]
    have e1' : redirOut1 fs (RedirSt.init (pre ++ ">" :: f :: post)) = .ok st1 := by
      unfold redirOut1; rw [if_pos m1]; exact e1
    have s2 : redirErr1 fs st1 = .ok st1 :=
      redirErr1_skip fs st1 (by rw [hc1]; exact opFree_not_mem hfree2 (by decide))
    have s3 : redirOut2 fs st1 = .ok st1 :=
      redirOut2_skip fs st1 (by rw [hc1]; exact opFree_not_mem hfree2 (by decide))
        (by rw [hc1]; exact opFree_not_mem hfree2 (by decide))
    have s4 : redirErr2 fs st1 = .ok st1 :=
      redirErr2_skip fs st1 (by rw [hc1]; exact opFree_not_mem hfree2 (by decide))
    exact ⟨st1, by simp only [extractRedirs, e1', s2, s3, s4], hc1⟩
  · -- op = "1>"
    obtain ⟨st1, e1, hc1⟩ :=
      applyOp_fire fs "1>" f .w .outC (RedirSt.init (pre ++ "1>" :: f :: post))
        pre post rfl hpre' hopen
    have n1 : (">" : String) ∉ (RedirSt.init (pre ++ "1>" :: f :: post)).cmds :=
      not_mem_middle (by decide) (by decide) hpre hf hpost
    have m1 : ("1>" : String) ∈ (RedirSt.init (pre ++ "1>" :: f :: post)).cmds := by
      simp [RedirSt.init]
    have e1' : redirOut1 fs (RedirSt.init (pre ++ "1>" :: f :: post)) = .ok st1 := by
      unfold redirOut1; rw [if_neg n1, if_pos m1]; exact e1
    have s2 : redirErr1 fs st1 = .ok st1 :=
      redirErr1_skip fs st1 (by rw [hc1]; exact opFree_not_mem hfree2 (by decide))
    have s3 : redirOut2 fs st1 = .ok st1 :=
      redirOut2_skip fs st1 (by rw [hc1]; exact opFree_not_mem hfree2 (by decide))
        (by rw [hc1]; exact opFree_not_mem hfree2 (by decide))
    have s4 : redirErr2 fs st1 = .ok st1 :=
      redirErr2_skip fs st1 (by rw [hc1]; exact opFree_not_mem hfree2 (by decide))
    exact ⟨st1, by simp only [extractRedirs, e1', s2, s3, s4], hc1⟩
  · -- op = ">>"
    obtain ⟨st1, e1, hc1⟩ :=
      applyOp_fire fs ">>" f .a .outC (RedirSt.init (pre ++ ">>" :: f :: post))
        pre post rfl hpre' hopen
    have s1 : redirOut1 fs (RedirSt.init (pre ++ ">>" :: f :: post)) =
        .ok (RedirSt.init (pre ++ ">>" :: f :: post)) :=
      redirOut1_skip fs _ (not_mem_middle (by decide) (by decide) hpre hf hpost)
        (not_mem_middle (by decide) (by decide) hpre hf hpost)
    have s2 : redirErr1 fs (RedirSt.init (pre ++ ">>" :: f :: post)) =
        .ok (RedirSt.init (pre ++ ">>" :: f :: post)) :=
      redirErr1_skip fs _ (not_mem_middle (by decide) (by decide) hpre hf hpost)
    have m1 : (">>" : String) ∈ (RedirSt.init (pre ++ ">>" :: f :: post)).cmds := by
      simp [RedirSt.init]
    have e3' : redirOut2 fs (RedirSt.init (pre ++ ">>" :: f :: post)) = .ok st1 := by
      unfold redirOut2; rw [if_pos m1]; exact e1
    have s4 : redirErr2 fs st1 = .ok st1 :=
      redirErr2_skip fs st1 (by rw [hc1]; exact opFree_not_mem hfree2 (by decide))
    exact ⟨st1, by simp only [extractRedirs, s1, s2, e3', s4], hc1⟩
  · -- op = "1>>"
    obtain ⟨st1, e1, hc1⟩ :=
      applyOp_fire fs "1>>" f .a .outC (RedirSt.init (pre ++ "1>>" :: f :: post))
        pre post rfl hpre' hopen
    have s1 : redirOut1 fs (RedirSt.init (pre ++ "1>>" :: f :: post)) =
        .ok (RedirSt.init (pre ++ "1>>" :: f :: post)) :=
      redirOut1_skip fs _ (not_mem_middle (by decide) (by decide) hpre hf hpost)
        (not_mem_middle (by decide) (by decide) hpre hf hpost)
    have s2 : redirErr1 fs (RedirSt.init (pre ++ "1>>" :: f :: post)) =
        .ok (RedirSt.init (pre ++ "1>>" :: f :: post)) :=
      redirErr1_skip fs _ (not_mem_middle (by decide) (by decide) hpre hf hpost)
    have n1 : (">>" : String) ∉ (RedirSt.init (pre ++ "1>>" :: f :: post)).cmds :=
      not_mem_middle (by decide) (by decide) hpre hf hpost
    have m1 : ("1>>" : String) ∈ (RedirSt.init (pre ++ "1>>" :: f :: post)).cmds := by
      simp [RedirSt.init]
    have e3' : redirOut2 fs (RedirSt.init (pre ++ "1>>" :: f :: post)) = .ok st1 := by
      unfold redirOut2; rw [if_neg n1, if_pos m1]; exact e1
    have s4 : redirErr2 fs st1 = .ok st1 :=
      redirErr2_skip fs st1 (by rw [hc1]; exact opFree_not_mem hfree2 (by decide))
    exact ⟨st1, by simp only [extractRedirs, s1, s2, e3', s4], hc1⟩
  · -- op = "2>"
    obtain ⟨st1, e1, hc1⟩ :=
      applyOp_fire fs "2>" f .w .errC (RedirSt.init (pre ++ "2>" :: f :: post))
        pre post rfl hpre' hopen
    have s1 : redirOut1 fs (RedirSt.init (pre ++ "2>" :: f :: post)) =
        .ok (RedirSt.init (pre ++ "2>" :: f :: post)) :=
      redirOut1_skip fs _ (not_mem_middle (by decide) (by decide) hpre hf hpost)
        (not_mem_middle (by decide) (by decide) hpre hf hpost)
    have m1 : ("2>" : String) ∈ (RedirSt.init (pre ++ "2>" :: f :: post)).cmds := by
      simp [RedirSt.init]
    have e2' : redirErr1 fs (RedirSt.init (pre ++ "2>" :: f :: post)) = .ok st1 := by
      unfold redirErr1; rw [if_pos m1]; exact e1
    have s3 : redirOut2 fs st1 = .ok st1 :=
      redirOut2_skip fs st1 (by rw [hc1]; exact opFree_not_mem hfree2 (by decide))
        (by rw [hc1]; exact opFree_not_mem hfree2 (by decide))
    have s4 : redirErr2 fs st1 = .ok st1 :=
      redirErr2_skip fs st1 (by rw [hc1]; exact opFree_not_mem hfree2 (by decide))
    exact ⟨st1, by simp only [extractRedirs, s1, e2', s3, s4], hc1⟩
  · -- op = "2>>"
    obtain ⟨st1, e1, hc1⟩ :=
      applyOp_fire fs "2>>" f .a .errC (RedirSt.init (pre ++ "2>>" :: f :: post))
        pre post rfl hpre' hopen
    have s1 : redirOut1 fs (RedirSt.init (pre ++ "2>>" :: f :: post)) =
        .ok (RedirSt.init (pre ++ "2>>" :: f :: post)) :=
      redirOut1_skip fs _ (not_mem_middle (by decide) (by decide) hpre hf hpost)
        (not_mem_middle (by decide) (by decide) hpre hf hpost)
    have s2 : redirErr1 fs (RedirSt.init (pre ++ "2>>" :: f :: post)) =
        .ok (RedirSt.init (pre ++ "2>>" :: f :: post)) :=
      redirErr1_skip fs _ (not_mem_middle (by decide) (by decide) hpre hf hpost)
    have s3 : redirOut2 fs (RedirSt.init (pre ++ "2>>" :: f :: post)) =
        .ok (RedirSt.init (pre ++ "2>>" :: f :: post)) :=
      redirOut2_skip fs _ (not_mem_middle (by decide) (by decide) hpre hf hpost)
        (not_mem_middle (by decide) (by decide) hpre hf hpost)
    have m1 : ("2>>" : String) ∈ (RedirSt.init (pre ++ "2>>" :: f :: post)).cmds := by
      simp [RedirSt.init]
    have e4' : redirErr2 fs (RedirSt.init (pre ++ "2>>" :: f :: post)) = .ok st1 := by
      unfold redirErr2; rw [if_pos m1]; exact e1
    exact ⟨st1, by simp only [extractRedirs, s1, s2, s3, e4'], hc1⟩

/-- A token list whose only redirection operator occurrence is its final
token: the block for that operator reads the token past the end of the list,
an `IndexError`. -/
theorem extract_trailing (fs : List String) (pre : List String) (op : String)
    (hop : op ∈ REDIR_OPS) (hpre : opFree pre) :
    extractRedirs fs (pre ++ [op]) =
      .error (.indexError, RedirSt.init (pre ++ [op])) := by
  have hpre' : op ∉ pre := opFree_not_mem hpre hop
  simp only [REDIR_OPS, List.mem_cons, List.not_mem_nil, or_false] at hop
  rcases hop with rfl | rfl | rfl | rfl | rfl | rfl
  · -- op = ">"
    have m1 : (">" : String) ∈ (RedirSt.init (pre ++ [">"])).cmds := by
      simp [RedirSt.init]
    have e1 : redirOut1 fs (RedirSt.init (pre ++ [">"])) =
        .error (.indexError, RedirSt.init (pre ++ [">"])) := by
      unfold redirOut1; rw [if_pos m1]
      exact applyOp_last fs ">" .w .outC _ pre rfl hpre'
    simp only [extractRedirs, e1]
  · -- op = "1>"
    have n1 : (">" : String) ∉ (RedirSt.init (pre ++ ["1>"])).cmds :=
      not_mem_last (by decide) (by decide) hpre
    have m1 : ("1>" : String) ∈ (RedirSt.init (pre ++ ["1>"])).cmds := by
      simp [RedirSt.init]
    have e1 : redirOut1 fs (RedirSt.init (pre ++ ["1>"])) =
        .error (.indexError, RedirSt.init (pre ++ ["1>"])) := by
      unfold redirOut1; rw [if_neg n1, if_pos m1]
      exact applyOp_last fs "1>" .w .outC _ pre rfl hpre'
    simp only [extractRedirs, e1]
  · -- op = ">>"
    have s1 : redirOut1 fs (RedirSt.init (pre ++ [">>"])) =
        .ok (RedirSt.init (pre ++ [">>"])) :=
      redirOut1_skip fs _ (not_mem_last (by decide) (by decide) hpre)
        (not_mem_last (by decide) (by decide) hpre)
    have s2 : redirErr1 fs (RedirSt.init (pre ++ [">>"])) =
        .ok (RedirSt.init (pre ++ [">>"])) :=
      redirErr1_skip fs _ (not_mem_last (by decide) (by decide) hpre)
    have m1 : (">>" : String) ∈ (RedirSt.init (pre ++ [">>"])).cmds := by
      simp [RedirSt.init]
    have e3 : redirOut2 fs (RedirSt.init (pre ++ [">>"])) =
        .error (.indexError, RedirSt.init (pre ++ [">>"])) := by
      unfold redirOut2; rw [if_pos m1]
      exact applyOp_last fs ">>" .a .outC _ pre rfl hpre'
    simp only [extractRedirs, s1, s2, e3]
  · -- op = "1>>"
    have s1 : redirOut1 fs (RedirSt.init (pre ++ ["1>>"])) =
        .ok (RedirSt.init (pre ++ ["1>>"])) :=
      redirOut1_skip fs _ (not_mem_last (by decide) (by decide) hpre)
        (not_mem_last (by decide) (by decide) hpre)
    have s2 : redirErr1 fs (RedirSt.init (pre ++ ["1>>"])) =
        .ok (RedirSt.init (pre ++ ["1>>"])) :=
      redirErr1_skip fs _ (not_mem_last (by decide) (by decide) hpre)
    have n1 : (">>" : String) ∉ (RedirSt.init (pre ++ ["1>>"])).cmds :=
      not_mem_last (by decide) (by decide) hpre
    have m1 : ("1>>" : String) ∈ (RedirSt.init (pre ++ ["1>>"])).cmds := by
      simp [RedirSt.init]
    have e3 : redirOut2 fs (RedirSt.init (pre ++ ["1>>"])) =
        .error (.indexError, RedirSt.init (pre ++ ["1>>"])) := by
      unfold redirOut2; rw [if_neg n1, if_pos m1]
      exact applyOp_last fs "1>>" .a .outC _ pre rfl hpre'
    simp only [extractRedirs, s1, s2, e3]
  · -- op = "2>"
    have s1 : redirOut1 fs (RedirSt.init (pre ++ ["2>"])) =
        .ok (RedirSt.init (pre ++ ["2>"])) :=
      redirOut1_skip fs _ (not_mem_last (by decide) (by decide) hpre)
        (not_mem_last (by decide) (by decide) hpre)
    have m1 : ("2>" : String) ∈ (RedirSt.init (pre ++ ["2>"])).cmds := by
      simp [RedirSt.init]
    have e2 : redirErr1 fs (RedirSt.init (pre ++ ["2>"])) =
        .error (.indexError, RedirSt.init (pre ++ ["2>"])) := by
      unfold redirErr1; rw [if_pos m1]
      exact applyOp_last fs "2>" .w .errC _ pre rfl hpre'
    simp only [extractRedirs, s1, e2]
  · -- op = "2>>"
    have s1 : redirOut1 fs (RedirSt.init (pre ++ ["2>>"])) =
        .ok (RedirSt.init (pre ++ ["2>>"])) :=
      redirOut1_skip fs _ (not_mem_last (by decide) (by decide) hpre)
        (not_mem_last (by decide) (by decide) hpre)
    have s2 : redirErr1 fs (RedirSt.init (pre ++ ["2>>"])) =
        .ok (RedirSt.init (pre ++ ["2>>"])) :=
      redirErr1_skip fs _ (not_mem_last (by decide) (by decide) hpre)
    have s3 : redirOut2 fs (RedirSt.init (pre ++ ["2>>"])) =
        .ok (RedirSt.init (pre ++ ["2>>"])) :=
      redirOut2_skip fs _ (not_mem_last (by decide) (by decide) hpre)
        (not_mem_last (by decide) (by decide) hpre)
    have m1 : ("2>>" : String) ∈ (RedirSt.init (pre ++ ["2>>"])).cmds := by
      simp [RedirSt.init]
    have e4 : redirErr2 fs (RedirSt.init (pre ++ ["2>>"])) =
        .error (.indexError, RedirSt.init (pre ++ ["2>>"])) := by
      unfold redirErr2; rw [if_pos m1]
      exact applyOp_last fs "2>>" .a .errC _ pre rfl hpre'
    simp only [extractRedirs, s1, s2, s3, e4]

/-- Replacement of every tilde, stated as a flat map over the characters of
the argument. -/
theorem replaceTilde_eq_flatMap (h : String) (cs : List Char) :
    replaceTilde h cs = cs.flatMap (fun c => if c = '~' then h.data else [c]) := by
  induction cs with
  | nil => rfl
  | cons c cs ih => simp [replaceTilde, ih]

/-! ### Claim theorems -/

/-- C5 (amended): for every post-extraction token list that matches none of
the five builtin shapes and whose first token does not resolve in
`PROGRAMS_IN_PATH`, `handle_all` writes the tokens joined by single spaces,
followed by `: command not found` and a newline, to the stdout stream (a
`writeOut`, not an error-stream write), and takes no further action. -/
theorem C5_command_not_found (env : Env) (cmd : String) (args : List String)
    (hb : isBuiltinForm (cmd :: args) = false)
    (hp : lookupProg env.programs cmd = none) :
    handle_all env (cmd :: args) =
      [Effect.writeOut (String.intercalate " " (cmd :: args) ++ ": command not found\n")] := by
  unfold handle_all
  split
  · rename_i s heq
    obtain ⟨rfl, rfl⟩ : cmd = "echo" ∧ args = s := by
      injection heq with h1 h2; exact ⟨h1, h2⟩
    simp [isBuiltinForm] at hb
  · rename_i s heq
    obtain ⟨rfl, rfl⟩ : cmd = "type" ∧ args = [s] := by
      injection heq with h1 h2; exact ⟨h1, h2⟩
    simp [isBuiltinForm] at hb
  · rename_i heq
    obtain ⟨rfl, rfl⟩ : cmd = "exit" ∧ args = ["0"] := by
      injection heq with h1 h2; exact ⟨h1, h2⟩
    simp [isBuiltinForm] at hb
  · rename_i heq
    obtain ⟨rfl, rfl⟩ : cmd = "pwd" ∧ args = [] := by
      injection heq with h1 h2; exact ⟨h1, h2⟩
    simp [isBuiltinForm] at hb
  · rename_i d heq
    obtain ⟨rfl, rfl⟩ : cmd = "cd" ∧ args = [d] := by
      injection heq with h1 h2; exact ⟨h1, h2⟩
    simp [isBuiltinForm] at hb
  · rename_i c as n1 n2 n3 n4 n5 heq
    obtain ⟨rfl, rfl⟩ : cmd = c ∧ args = as := by
      injection heq with h1 h2; exact ⟨h1, h2⟩
    simp [hp]
  · rename_i heq
    exact absurd heq (by simp)

/-- C5 witness: the instantiation of the amended claim at the concrete token
list `["foo", "bar"]` in an environment with an empty `PROGRAMS_IN_PATH`. -/
theorem C5_command_not_found_witness :
    isBuiltinForm ["foo", "bar"] = false ∧
    lookupProg envC5.programs "foo" = none ∧
    handle_all envC5 ["foo", "bar"] =
      [Effect.writeOut (String.intercalate " " ["foo", "bar"] ++ ": command not found\n")] :=
  ⟨by decide, rfl, C5_command_not_found envC5 "foo" ["bar"] (by decide) rfl⟩

/-- C5 counterexample: on the input line `foo  bar` (two spaces) the shell
writes the single-space join of the tokens, which differs from the full
original line, so the output is not
`<full original line>: command not found`. -/
theorem C5_counterexample :
    (mainStep envC5 "foo  bar").effects =
      [Effect.writeOut "foo bar: command not found\n"] ∧
    "foo bar: command not found\n" ≠ "foo  bar: command not found\n" :=
  ⟨rfl, by decide⟩

/-- C1: tokenizing a line with an unterminated single quote raises
`ValueError("No closing quotation")` at `main.py:52`, outside the
`try`/`finally` and outside any handler; the loop iteration ends in a crash
that terminates the REPL process, with nothing reported by the program
itself. -/
theorem C1_unbalanced_quote_crashes :
    shlexSplit lineC1 = .error "No closing quotation" ∧
    (mainStep envC1 lineC1).outcome =
      Outcome.crashed (Crash.valueError "No closing quotation") ∧
    (mainStep envC1 lineC1).effects = [] ∧
    (mainStep envC1 lineC1).dispatched = none :=
  ⟨rfl, rfl, rfl, rfl⟩

/-- C2: when the target of `>` cannot be opened, `open()` raises inside the
`try`; the `finally` runs (nothing to close) and the exception propagates,
terminating the REPL.  The command is indeed aborted before execution
(`handle_all` is never reached, no effects), but nothing is written to the
error stream and the loop does not continue. -/
theorem C2_unopenable_redirect_crashes :
    (mainStep envC2 "echo hi > /missing/out.txt").outcome =
      Outcome.crashed (Crash.osError "/missing/out.txt") ∧
    (mainStep envC2 "echo hi > /missing/out.txt").dispatched = none ∧
    (mainStep envC2 "echo hi > /missing/out.txt").effects = [] ∧
    (mainStep envC2 "echo hi > /missing/out.txt").closed = [] :=
  ⟨rfl, rfl, rfl, rfl⟩

/-- C3: on a line carrying both `>` and `>>` for stdout, the `>` block opens
the first file and sets `close_out`; the `>>` block then rebinds `out` to
the second file without closing the first.  The `finally` closes only the
file still bound to `out`, so the first opened file is never closed even
though the iteration completes normally. -/
theorem C3_truncate_then_append_leaks :
    (mainStep envC3 "echo hi > /tmp/a >> /tmp/b").opened =
      [("/tmp/a", Mode.w), ("/tmp/b", Mode.a)] ∧
    (mainStep envC3 "echo hi > /tmp/a >> /tmp/b").closed = ["/tmp/b"] ∧
    "/tmp/a" ∉ (mainStep envC3 "echo hi > /tmp/a >> /tmp/b").closed ∧
    (mainStep envC3 "echo hi > /tmp/a >> /tmp/b").effects =
      [Effect.writeOut "hi\n"] ∧
    (mainStep envC3 "echo hi > /tmp/a >> /tmp/b").outcome = Outcome.next :=
  ⟨rfl, rfl, by decide, rfl, rfl⟩

/-- C7: an empty input line tokenizes to the empty list, which falls through
every builtin pattern of `handle_all` into the catch-all `case command:`;
the shell writes `": command not found"` (the join of zero tokens) to
stdout instead of doing nothing. -/
theorem C7_empty_line_not_noop :
    shlexSplit "" = .ok [] ∧
    (mainStep envC7 "").dispatched = some [] ∧
    (mainStep envC7 "").effects = [Effect.writeOut ": command not found\n"] ∧
    (mainStep envC7 "").outcome = Outcome.next :=
  ⟨rfl, rfl, rfl, rfl⟩

/-- C4 counterexample: on the line `a > f >` the operator token `>` occurs
twice; only its first occurrence (and the following filename) is removed,
and the Dispatcher receives `["a", ">"]`, which still contains the
redirection operator `>`. -/
theorem C4_counterexample :
    (mainStep envC4 "a > f >").tokens = some ["a", ">", "f", ">"] ∧
    (mainStep envC4 "a > f >").dispatched = some ["a", ">"] ∧
    ">" ∈ REDIR_OPS :=
  ⟨rfl, rfl, by decide⟩

/-- C4 (amended): for every input line whose token sequence contains at most
one redirection-operator token, the Dispatcher is protected: with no
operator the sequence is passed unchanged, and with a single operator
followed by an openable filename the sequence passed to `handle_all` is the
one with exactly the operator and its filename token removed, hence free of
redirection operators.  (Lines with repeated or elif-shadowed operator
tokens can leak operator tokens through, as the counterexample shows.) -/
theorem C4_dispatcher_tokens (env : Env) (line : String) :
    (∀ cmds : List String, shlexSplit line = .ok cmds → opFree cmds →
      (mainStep env line).dispatched = some cmds) ∧
    (∀ pre post : List String, ∀ op f : String,
      shlexSplit line = .ok (pre ++ op :: f :: post) → op ∈ REDIR_OPS →
      opFree pre → f ∉ REDIR_OPS → opFree post → f ∈ env.openable →
      (mainStep env line).dispatched = some (pre ++ post) ∧ opFree (pre ++ post)) := by
  constructor
  · intro cmds htok hfree
    simp [mainStep, htok, extract_no_ops env.openable cmds hfree, RedirSt.init]
  · intro pre post op f htok hop hpre hf hpost hopen
    obtain ⟨st, he, hcm⟩ :=
      extract_single_op env.openable pre post op f hop hpre hf hpost hopen
    refine ⟨?_, opFree_append hpre hpost⟩
    simp [mainStep, htok, he, hcm]

/-- C4 witness: the amended claim at the line `echo hi > out.txt`: the
Dispatcher receives `["echo", "hi"]`, free of operators and of the filename
token. -/
theorem C4_dispatcher_tokens_witness :
    (mainStep envC4w "echo hi > out.txt").dispatched = some ["echo", "hi"] := by
  have h := (C4_dispatcher_tokens envC4w "echo hi > out.txt").2 ["echo", "hi"] []
    ">" "out.txt" rfl (by decide) (by decide) (by decide) (by decide) (by decide)
  simpa using h.1

/-- C6 counterexample: with HOME set to `/home/u`, `cd ~/nope` reports the
path after tilde substitution, not the argument as originally given. -/
theorem C6_counterexample :
    cd envC6 "~/nope" =
      [Effect.writeOut "cd: /home/u/nope: No such file or directory\n"] ∧
    "cd: /home/u/nope: No such file or directory\n" ≠
      "cd: ~/nope: No such file or directory\n" :=
  ⟨rfl, by decide⟩

/-- C6 (amended): for every `cd` argument whose tilde-substituted form does
not exist, the shell writes `cd: <argument after tilde substitution>: No
such file or directory` to the stdout stream and produces no other effect —
in particular no `chdir`, so the working directory is unchanged. -/
theorem C6_cd_missing (env : Env) (arg : String)
    (h : tildeSub env.home arg ∉ env.existing) :
    cd env arg =
      [Effect.writeOut ("cd: " ++ tildeSub env.home arg ++
        ": No such file or directory\n")] := by
  unfold cd
  rw [if_neg h]

/-- C6 witness: the amended claim at the concrete argument `~/nope` with
HOME set to `/home/u` and an empty filesystem. -/
theorem C6_cd_missing_witness :
    tildeSub envC6.home "~/nope" ∉ envC6.existing ∧
    cd envC6 "~/nope" =
      [Effect.writeOut ("cd: " ++ tildeSub envC6.home "~/nope" ++
        ": No such file or directory\n")] :=
  ⟨by decide, C6_cd_missing envC6 "~/nope" (by decide)⟩

/-- C8 counterexample: scanning a permission-denied directory raises an
uncaught `PermissionError`, while a missing directory is skipped silently
(the `except` clause catches only `FileNotFoundError`). -/
theorem C8_counterexample :
    parse_programs_in_path [("/locked", DirState.denied)] "/locked" =
      .error (Crash.permissionError "/locked") ∧
    parse_programs_in_path [] "/gone" = .ok [] :=
  ⟨rfl, rfl⟩

/-- C8 (amended): in the directory loop of `parse_programs_in_path`, a
missing directory is skipped silently and the scan continues, but a
permission-denied directory raises an uncaught `PermissionError` that
aborts the scan (and with it process startup) instead of being skipped. -/
theorem C8_scan_skip_vs_denied (fsys : List (String × DirState)) (d : String)
    (ds : List String) (progs : List (String × String)) :
    (lookupDir fsys d = DirState.missing →
      scanDirs fsys (d :: ds) progs = scanDirs fsys ds progs) ∧
    (lookupDir fsys d = DirState.denied →
      scanDirs fsys (d :: ds) progs = .error (Crash.permissionError d)) := by
  constructor <;> intro h <;> simp [scanDirs, h]

/-- C8 witness: the amended claim on a concrete filesystem: the missing
directory `/gone` is skipped, the denied directory `/locked` aborts the
scan. -/
theorem C8_scan_skip_vs_denied_witness :
    scanDirs fsysC8 ["/gone", "/ok"] [] = scanDirs fsysC8 ["/ok"] [] ∧
    scanDirs fsysC8 ["/locked"] [] = .error (Crash.permissionError "/locked") :=
  ⟨(C8_scan_skip_vs_denied fsysC8 "/gone" ["/ok"] []).1 rfl,
   (C8_scan_skip_vs_denied fsysC8 "/locked" [] []).2 rfl⟩

/-- C9 counterexample: with HOME set to the empty string, the code
substitutes `/root` (because the Python `or` treats the empty string as
falsy), not the value of HOME; the claim as stated predicts `/x` for the
argument `~/x`, but the code yields `/root/x`. -/
theorem C9_counterexample :
    tildeSub (some "") "~/x" = "/root/x" ∧
    tildeSub (some "") "~/x" ≠
      String.mk ("~/x".data.flatMap
        (fun c => if c = '~' then ("" : String).data else [c])) :=
  ⟨rfl, by decide⟩

/-- C9 (amended): for every `cd` argument beginning with `~`, every
occurrence of `~` (not only the leading one) is replaced by
`os.getenv("HOME") or "/root"` — the value of HOME, falling back to `/root`
when HOME is unset or set to the empty string — before the existence check;
an argument not beginning with `~` undergoes no substitution. -/
theorem C9_tilde_substitution (home : Option String) (arg : String) :
    (startsWithTilde arg = true →
      tildeSub home arg =
        String.mk (arg.data.flatMap
          (fun c => if c = '~' then (pyGetenvOr home "/root").data else [c]))) ∧
    (startsWithTilde arg = false → tildeSub home arg = arg) ∧
    pyGetenvOr none "/root" = "/root" ∧
    pyGetenvOr (some "") "/root" = "/root" ∧
    (∀ h : String, h ≠ "" → pyGetenvOr (some h) "/root" = h) := by
  refine ⟨?_, ?_, rfl, rfl, ?_⟩
  · intro hs
    unfold tildeSub
    rw [if_pos hs]
    unfold pyReplaceTilde
    rw [replaceTilde_eq_flatMap]
  · intro hs
    unfold tildeSub
    rw [if_neg (by simp [hs])]
  · intro h hne
    unfold pyGetenvOr
    simp [hne]

/-- C9 witness: the amended claim at concrete inputs: a tilde argument with
HOME set to `/h` (both tildes replaced), a non-tilde argument (unchanged),
and the fallback behavior of `os.getenv("HOME") or "/root"`. -/
theorem C9_tilde_substitution_witness :
    tildeSub (some "/h") "~/x~y" =
      String.mk ("~/x~y".data.flatMap
        (fun c => if c = '~' then (pyGetenvOr (some "/h") "/root").data else [c])) ∧
    tildeSub (some "/h") "a~b" = "a~b" ∧
    pyGetenvOr (some "/h") "/root" = "/h" :=
  ⟨(C9_tilde_substitution (some "/h") "~/x~y").1 rfl,
   (C9_tilde_substitution (some "/h") "a~b").2.1 rfl,
   (C9_tilde_substitution (some "/h") "a~b").2.2.2.2 "/h" (by decide)⟩

/-- C10 counterexample: the line `b > g >` ends with the redirection
operator `>` and no filename follows it, yet handling does not raise: the
`.index` lookup finds the first `>`, which has the filename `g` after it,
and the iteration completes normally. -/
theorem C10_counterexample :
    (mainStep envC10 "b > g >").tokens = some ["b", ">", "g", ">"] ∧
    ["b", ">", "g", ">"].getLast? = some ">" ∧
    ">" ∈ REDIR_OPS ∧
    (mainStep envC10 "b > g >").outcome = Outcome.next :=
  ⟨rfl, by decide, by decide, rfl⟩

/-- C10 (amended): for every input line whose token sequence contains
exactly one redirection-operator token, located at the final position, the
block for that operator reads the token after it, raising an uncaught
`IndexError` that terminates the REPL process. -/
theorem C10_trailing_sole_operator (env : Env) (line : String) (pre : List String)
    (op : String) (hop : op ∈ REDIR_OPS) (hpre : opFree pre)
    (htok : shlexSplit line = .ok (pre ++ [op])) :
    (mainStep env line).outcome = Outcome.crashed Crash.indexError := by
  simp [mainStep, htok, extract_trailing env.openable pre op hop hpre]

/-- C10 witness: the amended claim at the line `echo hi 2>`, whose sole
operator `2>` is final: the iteration crashes with an `IndexError`. -/
theorem C10_trailing_sole_operator_witness :
    (mainStep envC10w "echo hi 2>").outcome = Outcome.crashed Crash.indexError :=
  C10_trailing_sole_operator envC10w "echo hi 2>" ["echo", "hi"] "2>"
    (by decide) (by decide) rfl

end PyShell
